import Mathlib

/-!
Verification of the orderbook-reflex price-process simulator.

This file shallowly embeds the core simulation pipeline of the repository:
the regime-conditioned quote model (`QuoteModel.ts` — `sampleTick`), the
tick generator (`QuoteGenerator` — `stepSecond`, `biasTowardTarget`,
`getVolumeWeightedMid`), the regime scheduler (`RegimeScheduler.ts` —
`schedule`, `getCurrentRegime`, `calculateBreakoutDuration`), the breakout
notifier state machine (`BreakoutNotifier.ts`) and the orchestrating
`PriceModel` with its rolling mid-price buffer and pivot detection
(`PriceModel.ts` — constructor and `update`).

JavaScript numbers are modelled as rationals (ℚ); `Math.random()` draws and
the sampled model outcomes are externalized as explicit parameters, so every
definition is a pure function of its inputs.
-/

/-- Price direction tag, `"U" | "D" | "F"` in the source. -/
inductive Sign where
  | U : Sign
  | D : Sign
  | F : Sign
deriving DecidableEq, Repr

/-- Breakout type, `'bullish' | 'bearish' | 'fake' | 'none'` in `MarketScenario.ts`. -/
inductive BreakoutType where
  | bullish : BreakoutType
  | bearish : BreakoutType
  | fake : BreakoutType
  | none : BreakoutType
deriving DecidableEq, Repr

/-- Breakout speed, `'instant' | 'gradual' | 'accelerating'` in `MarketScenario.ts`. -/
inductive BreakoutSpeed where
  | instant : BreakoutSpeed
  | gradual : BreakoutSpeed
  | accelerating : BreakoutSpeed
deriving DecidableEq, Repr

/-- Regime tuple `[Momentum, Breakout]`, e.g. `("N", "O")`. -/
abbrev Regime := String × String

/-- `FakeBreakoutConfig` from `MarketScenario.ts`. -/
structure FakeBreakoutConfig where
  timeWindow : ℚ × ℚ
  magnitude : ℚ
  reversalSpeed : ℚ
deriving DecidableEq, Repr

/-- `BreakoutConfig` from `MarketScenario.ts` (`type` is renamed `btype`). -/
structure BreakoutConfig where
  btype : BreakoutType
  timeWindow : ℚ × ℚ
  magnitude : ℚ
  speed : BreakoutSpeed
  preWarning : Option ℚ
  notification : Bool
deriving DecidableEq, Repr

/-- `SpreadConfig` from `MarketScenario.ts`. -/
structure SpreadConfig where
  base : ℚ
  volatilityMultiplier : ℚ
  minSpread : ℚ
  maxSpread : ℚ
deriving DecidableEq, Repr

/-- `MarketScenario` from `MarketScenario.ts`. `fakeBreakouts` stands for
`advanced?.fakeBreakouts || []` (the only advanced feature the scheduler reads). -/
structure MarketScenario where
  startPrice : ℚ
  duration : ℚ
  breakout : BreakoutConfig
  spread : SpreadConfig
  fakeBreakouts : List FakeBreakoutConfig
deriving DecidableEq, Repr

/-- `createRangingScenario()` from `MarketScenario.ts`. -/
def createRangingScenario : MarketScenario :=
  { startPrice := 100
    duration := 60
    breakout :=
      { btype := BreakoutType.none
        timeWindow := (0, 0)
        magnitude := 0
        speed := BreakoutSpeed.gradual
        preWarning := Option.none
        notification := false }
    spread :=
      { base := 2/100, volatilityMultiplier := 1, minSpread := 1/100, maxSpread := 5/100 }
    fakeBreakouts := [] }

/-- `createBullishBreakout()` from `MarketScenario.ts`. -/
def createBullishBreakout : MarketScenario :=
  { startPrice := 100
    duration := 60
    breakout :=
      { btype := BreakoutType.bullish
        timeWindow := (20, 40)
        magnitude := 1
        speed := BreakoutSpeed.gradual
        preWarning := some 5
        notification := true }
    spread :=
      { base := 2/100, volatilityMultiplier := 3/2, minSpread := 1/100, maxSpread := 1/10 }
    fakeBreakouts := [] }

/-- A raw sampled tick `{dp, spread, size}` as returned by `QuoteModel.sampleTick`. -/
structure RawTick where
  dp : ℚ
  spread : ℚ
  size : ℚ
deriving DecidableEq, Repr

/-- String form of a sign tag, as interpolated into the transition key. -/
def signStr : Sign → String
  | Sign.U => "U"
  | Sign.D => "D"
  | Sign.F => "F"

/-- The `QuoteModel`'s `transition` table: composite `"momentum,breakout,sign"` key →
weighted buckets. Bucket keys `"dpBin,spreadBin,sizeBin"` are kept as integer
triples (the comma-joined string is their serialized form in the data file). -/
structure QuoteModel where
  transition : List (String × List ((ℤ × ℤ × ℤ) × ℚ))
  ticksPerRegime : List (String × ℚ)
  secondsPerRegime : List (String × ℚ)
deriving DecidableEq, Repr

/-- The weighted-selection loop inside `sampleTick`: walk the bucket entries,
subtracting each weight from the running random value; decode the first bucket
at which it drops to `≤ 0` (`dpBin × 0.005`, `spreadBin × 0.01`, `sizeBin × 100`). -/
def pickBucket : ℚ → List ((ℤ × ℤ × ℤ) × ℚ) → Option RawTick
  | _, [] => Option.none
  | r, (bin, w) :: rest =>
      if r - w ≤ 0 then
        some { dp := bin.1 * (5/1000), spread := bin.2.1 * (1/100), size := bin.2.2 * 100 }
      else pickBucket (r - w) rest

/-- `QuoteModel.sampleTick(regime, sign)`. The uniform draw `rand` stands for
`Math.random()`. Absent key or empty bucket set falls back to
`{dp: 0, spread: 0.01, size: 100}`; so does a fall-through of the selection loop. -/
def QuoteModel.sampleTick (m : QuoteModel) (regime : Regime) (sign : Sign) (rand : ℚ) :
    RawTick :=
  let key := regime.1 ++ "," ++ regime.2 ++ "," ++ signStr sign
  match m.transition.lookup key with
  | Option.none => { dp := 0, spread := 1/100, size := 100 }
  | some bucket =>
    if bucket.isEmpty then { dp := 0, spread := 1/100, size := 100 }
    else
      let totalWeight := bucket.foldl (fun sum p => sum + p.2) 0
      match pickBucket (rand * totalWeight) bucket with
      | some t => t
      | Option.none => { dp := 0, spread := 1/100, size := 100 }

/-- Mutable bid/ask state owned by `QuoteGenerator`. -/
structure GenState where
  bid : ℚ
  ask : ℚ
deriving DecidableEq, Repr

/-- An emitted tick `{time, priceBid, priceAsk, sizeBid, sizeAsk}`. -/
structure Tick where
  time : ℚ
  priceBid : ℚ
  priceAsk : ℚ
  sizeBid : ℤ
  sizeAsk : ℤ
deriving DecidableEq, Repr

/-- `Math.round(x * 100) / 100` — rounding to cent precision. -/
def round2 (x : ℚ) : ℚ := (⌊x * 100 + 1/2⌋ : ℚ) / 100

/-- `Math.sign` on rationals. -/
def ratSign (x : ℚ) : ℚ := if x > 0 then 1 else if x < 0 then -1 else 0

/-- `QuoteGenerator.biasTowardTarget(dp, targetPrice)`, reading the generator's
current `bid` as the current price. -/
def biasTowardTarget (g : GenState) (dp : ℚ) (targetPrice : ℚ) : ℚ :=
  let currentPrice := g.bid
  let distanceToTarget := targetPrice - currentPrice
  if |distanceToTarget| < currentPrice * (1/1000) then dp
  else
    let desiredDirection := ratSign distanceToTarget
    let urgency := min 1 (|distanceToTarget| / currentPrice * 20)
    let biasFactor := (7/10) * urgency
    let stepSize := min (5/100) (|distanceToTarget| * (1/10))
    let biasedDp := desiredDirection * stepSize
    biasFactor * biasedDp + (1 - biasFactor) * dp

/-- The target-bias function as the specification words it: identical blend, but
with `biasFactor = 0.7 × clamp(|distance|/current × 20, 0, 1)` — i.e. the urgency
ramp clamped below at 0 as well as above at 1. -/
def biasTowardTargetSpec (currentPrice dp targetPrice : ℚ) : ℚ :=
  let distanceToTarget := targetPrice - currentPrice
  if |distanceToTarget| < currentPrice * (1/1000) then dp
  else
    let desiredDirection := ratSign distanceToTarget
    let urgency := max 0 (min 1 (|distanceToTarget| / currentPrice * 20))
    let biasFactor := (7/10) * urgency
    let stepSize := min (5/100) (|distanceToTarget| * (1/10))
    biasFactor * (desiredDirection * stepSize) + (1 - biasFactor) * dp

/-- `QuoteGenerator.stepSecond(ts, regime, sign, targetPrice)`. The `n` sampled
raw ticks drawn inside the loop are externalized as the list `samples` (the
regime and the running sign only condition that sampling). Returns the final
generator state and the emitted ticks in order; the running sign is updated from
the (possibly biased) realized delta exactly as in the source. -/
def stepSecond (ts : ℚ) (targetPrice : Option ℚ) :
    List RawTick → Sign → GenState → GenState × List Tick
  | [], _, g => (g, [])
  | t :: rest, _currentSign, g =>
      let dp := match targetPrice with
        | some tp => biasTowardTarget g t.dp tp
        | Option.none => t.dp
      let bid' := g.bid + dp
      let ask' := max (bid' + t.spread) (bid' + 1/100)
      let tick : Tick :=
        { time := ts, priceBid := round2 bid', priceAsk := round2 ask',
          sizeBid := ⌊t.size / 2⌋, sizeAsk := ⌊t.size / 2⌋ }
      let nextSign := if dp > 0 then Sign.U else if dp < 0 then Sign.D else Sign.F
      let res := stepSecond ts targetPrice rest nextSign { bid := bid', ask := ask' }
      (res.1, tick :: res.2)

/-- `QuoteGenerator.getVolumeWeightedMid(sizeBid, sizeAsk)`, reading the
generator's current bid/ask. Zero total size falls back to the arithmetic mid. -/
def getVolumeWeightedMid (g : GenState) (sizeBid sizeAsk : ℚ) : ℚ :=
  let totalSize := sizeBid + sizeAsk
  if totalSize = 0 then (g.bid + g.ask) / 2
  else (g.bid * sizeAsk + g.ask * sizeBid) / totalSize


/-- A scheduled regime segment (`RegimeSegment` in `RegimeScheduler.ts`). -/
structure RegimeSegment where
  startTime : ℚ
  endTime : ℚ
  regime : Regime
  sign : Sign
  targetPrice : Option ℚ
  description : String
deriving DecidableEq, Repr

/-- `BreakoutEvent` from `RegimeScheduler.ts`. -/
structure BreakoutEvent where
  startTime : ℚ
  endTime : ℚ
  btype : BreakoutType
  targetPrice : ℚ
  speed : BreakoutSpeed
deriving DecidableEq, Repr

/-- An entry of the scheduler's internal `allEvents` list (`'fake' | 'main'`,
time bounds, target, and the optional `reversalSpeed` that is recorded on
fake-out events but never read back). -/
structure SchedEvent where
  isMain : Bool
  startTime : ℚ
  endTime : ℚ
  targetPrice : ℚ
  reversalSpeed : Option ℚ
deriving DecidableEq, Repr

/-- `RegimeScheduler.calculateBreakoutDuration(speed, magnitudePercent)`.
The `default` arm of the source's switch is unreachable for the closed union. -/
def calculateBreakoutDuration (speed : BreakoutSpeed) (magnitudePercent : ℚ) : ℚ :=
  match speed with
  | BreakoutSpeed.instant => 2
  | BreakoutSpeed.gradual => max 8 (min 30 (10 + magnitudePercent * 5))
  | BreakoutSpeed.accelerating => max 10 (min 40 (15 + magnitudePercent * 8))

/-- Stable insertion of an event into an already-sorted list, keeping existing
entries with an equal or smaller start time in front: together with
`sortEvents` this mirrors `allEvents.sort((a, b) => a.startTime - b.startTime)`
(JavaScript array sort is stable). -/
def insertSorted (e : SchedEvent) : List SchedEvent → List SchedEvent
  | [] => [e]
  | x :: xs => if x.startTime ≤ e.startTime then x :: insertSorted e xs else e :: x :: xs

/-- Stable sort of the event list by ascending start time. -/
def sortEvents (l : List SchedEvent) : List SchedEvent :=
  l.foldl (fun acc e => insertSorted e acc) []

/-- Result of `RegimeScheduler.schedule`: the built timeline and the recorded
breakout event. -/
structure ScheduleResult where
  timeline : List RegimeSegment
  breakoutEvent : Option BreakoutEvent
deriving DecidableEq, Repr

/-- The timeline-building loop body of `schedule`: emit a ranging segment for
any gap before the event, then the event's own breakout segment; advance the
running time to the event's end. -/
def buildStep (startPrice : ℚ) (acc : ℚ × List RegimeSegment) (event : SchedEvent) :
    ℚ × List RegimeSegment :=
  let currentTime := acc.1
  let tl := acc.2
  let tl1 :=
    if currentTime < event.startTime then
      tl ++ [{ startTime := currentTime, endTime := event.startTime,
               regime := ("N", "O"), sign := Sign.F, targetPrice := Option.none,
               description := "Ranging period" }]
    else tl
  let direction := if event.targetPrice > startPrice then Sign.U else Sign.D
  let descr :=
    if event.isMain then
      if event.targetPrice > startPrice then "Main bullish breakout" else "Main bearish breakout"
    else "Fake breakout"
  (event.endTime,
   tl1 ++ [{ startTime := event.startTime, endTime := event.endTime,
             regime := ("N", "B"), sign := direction,
             targetPrice := some event.targetPrice, description := descr }])

/-- `RegimeScheduler.schedule(scenario)`. `mainRand` is the `Math.random()` draw
for the primary breakout's start; `fakeRands` supplies one draw per configured
fake breakout. `prevBreakoutEvent` is the scheduler's `breakoutEvent` field
before the call (the source resets `timeline` but not `breakoutEvent`, which is
only overwritten when the breakout type is not `none`). -/
def schedule (scenario : MarketScenario) (mainRand : ℚ) (fakeRands : List ℚ)
    (prevBreakoutEvent : Option BreakoutEvent) : ScheduleResult :=
  let startPrice := scenario.startPrice
  let duration := scenario.duration
  let breakout := scenario.breakout
  let mainEvent : Option BreakoutEvent :=
    if breakout.btype ≠ BreakoutType.none then
      let minTime := breakout.timeWindow.1
      let maxTime := breakout.timeWindow.2
      let breakoutStartTime := minTime + mainRand * (maxTime - minTime)
      let breakoutDuration := calculateBreakoutDuration breakout.speed |breakout.magnitude|
      let breakoutEndTime := min (breakoutStartTime + breakoutDuration) duration
      let targetPrice := startPrice * (1 + breakout.magnitude / 100)
      some { startTime := breakoutStartTime, endTime := breakoutEndTime,
             btype := breakout.btype, targetPrice := targetPrice, speed := breakout.speed }
    else Option.none
  let fakeEvents : List SchedEvent :=
    (scenario.fakeBreakouts.zip fakeRands).foldr
      (fun p acc =>
        let fake := p.1
        let fakeStartTime := fake.timeWindow.1 + p.2 * (fake.timeWindow.2 - fake.timeWindow.1)
        let fakeDuration := calculateBreakoutDuration BreakoutSpeed.gradual |fake.magnitude|
        let fakeEndTime := fakeStartTime + fakeDuration
        let fakeReversalTime := fakeEndTime + fake.reversalSpeed
        { isMain := false, startTime := fakeStartTime, endTime := fakeEndTime,
          targetPrice := startPrice * (1 + fake.magnitude / 100),
          reversalSpeed := some fake.reversalSpeed } ::
        { isMain := false, startTime := fakeEndTime, endTime := fakeReversalTime,
          targetPrice := startPrice, reversalSpeed := Option.none } :: acc)
      []
  let allEvents : List SchedEvent :=
    fakeEvents ++
      (match mainEvent with
       | some be =>
         [{ isMain := true, startTime := be.startTime, endTime := be.endTime,
            targetPrice := be.targetPrice, reversalSpeed := Option.none }]
       | Option.none => [])
  let sorted := sortEvents allEvents
  let built := sorted.foldl (buildStep startPrice) (0, [])
  let timeline :=
    if built.1 < duration then
      built.2 ++ [{ startTime := built.1, endTime := duration,
                    regime := ("N", "O"), sign := Sign.F, targetPrice := Option.none,
                    description := "Post-breakout ranging" }]
    else built.2
  { timeline := timeline
    breakoutEvent := match mainEvent with
                     | some be => some be
                     | Option.none => prevBreakoutEvent }

/-- The `{regime, sign, targetPrice}` record returned by `getCurrentRegime`. -/
structure CurrentRegime where
  regime : Regime
  sign : Sign
  targetPrice : Option ℚ
deriving DecidableEq, Repr

/-- The segment-lookup loop of `getCurrentRegime`: the first segment whose
half-open `[startTime, endTime)` range contains the elapsed time. -/
def findSegment (elapsedTime : ℚ) : List RegimeSegment → Option RegimeSegment
  | [] => Option.none
  | s :: rest =>
      if s.startTime ≤ elapsedTime ∧ elapsedTime < s.endTime then some s
      else findSegment elapsedTime rest

/-- `RegimeScheduler.getCurrentRegime(elapsedTime)` as a pure lookup over the
built timeline: default on an empty timeline, first segment whose half-open
time range contains `elapsedTime`, and otherwise the last segment. -/
def getCurrentRegime (timeline : List RegimeSegment) (elapsedTime : ℚ) : CurrentRegime :=
  match timeline with
  | [] => { regime := ("N", "O"), sign := Sign.F, targetPrice := Option.none }
  | _ =>
    match findSegment elapsedTime timeline with
    | some segment =>
        { regime := segment.regime, sign := segment.sign, targetPrice := segment.targetPrice }
    | Option.none =>
      match timeline.getLast? with
      | some last =>
          { regime := last.regime, sign := last.sign, targetPrice := last.targetPrice }
      | Option.none => { regime := ("N", "O"), sign := Sign.F, targetPrice := Option.none }

/-- Breakout event kinds emitted by the notifier. -/
inductive BreakoutEventType where
  | warning : BreakoutEventType
  | start : BreakoutEventType
  | progress : BreakoutEventType
  | completion : BreakoutEventType
deriving DecidableEq, Repr

/-- Payload of an emitted notifier event (`BreakoutEvent` in
`BreakoutNotifier.ts`; optional fields mirror the source's object literals). -/
structure EmittedEvent where
  etype : BreakoutEventType
  breakoutType : BreakoutType
  timeToBreakout : Option ℚ
  currentPrice : Option ℚ
  targetPrice : Option ℚ
  magnitude : Option ℚ
  expectedDuration : Option ℚ
  progress : Option ℚ
  timestamp : ℚ
deriving DecidableEq, Repr

/-- Mutable state of `BreakoutNotifier` (listener lists excluded: dispatch is
modelled by returning the list of emitted events). -/
structure NotifierState where
  lastWarningTime : ℚ
  lastProgressTime : ℚ
  breakoutInProgress : Bool
  breakoutStartPrice : ℚ
deriving DecidableEq, Repr

/-- `BreakoutNotifier.notifyBreakoutStart`. `now` stands for
`performance.now() / 1000`. Returns the new state and the emitted events;
a call while a breakout is already in progress is suppressed. -/
def notifyBreakoutStart (st : NotifierState) (breakoutType : BreakoutType)
    (currentPrice targetPrice magnitude expectedDuration now : ℚ) :
    NotifierState × List EmittedEvent :=
  if st.breakoutInProgress then (st, [])
  else
    ({ st with breakoutInProgress := true, breakoutStartPrice := currentPrice },
     [{ etype := BreakoutEventType.start, breakoutType := breakoutType,
        timeToBreakout := Option.none, currentPrice := some currentPrice,
        targetPrice := some targetPrice, magnitude := some magnitude,
        expectedDuration := some expectedDuration, progress := Option.none,
        timestamp := now }])

/-- `BreakoutNotifier.notifyBreakoutCompletion`. A call while idle is a no-op. -/
def notifyBreakoutCompletion (st : NotifierState) (breakoutType : BreakoutType)
    (currentPrice targetPrice magnitude now : ℚ) :
    NotifierState × List EmittedEvent :=
  if !st.breakoutInProgress then (st, [])
  else
    ({ st with breakoutInProgress := false },
     [{ etype := BreakoutEventType.completion, breakoutType := breakoutType,
        timeToBreakout := Option.none, currentPrice := some currentPrice,
        targetPrice := some targetPrice, magnitude := some magnitude,
        expectedDuration := Option.none, progress := some 1,
        timestamp := now }])

/-- One entry of the `PriceModel` rolling buffer. -/
structure BufferEntry where
  bid : ℚ
  ask : ℚ
  mid : ℚ
deriving DecidableEq, Repr

/-- Pivot tag: pivot high (`"PH"`) or pivot low (`"PL"`). -/
inductive Pivot where
  | PH : Pivot
  | PL : Pivot
deriving DecidableEq, Repr

/-- `Math.max(...)` over a list, as applied to the spread buffer mids
(a nonempty list in every use site). -/
def listMax : List ℚ → ℚ
  | [] => 0
  | x :: xs => xs.foldl max x

/-- `Math.min(...)` over a list. -/
def listMin : List ℚ → ℚ
  | [] => 0
  | x :: xs => xs.foldl min x

/-- The pivot-detection expression of `PriceModel.update`: compare the buffer's
centre mid (index `window`) against the maximum and minimum mid of the whole
buffer; equality with the maximum wins, then equality with the minimum. -/
def detectPivot (buf : List BufferEntry) (window : ℕ) : Option Pivot :=
  let centre := buf.getD window { bid := 0, ask := 0, mid := 0 }
  let mids := buf.map (·.mid)
  let maxMid := listMax mids
  let minMid := listMin mids
  if centre.mid = maxMid then some Pivot.PH
  else if centre.mid = minMid then some Pivot.PL
  else Option.none

/-- State of `PriceModel` (scheduler, notifier and exchange generator are
threaded separately; this holds the generator state, the rolling buffer and the
exported pivot/best fields). -/
structure PMState where
  gen : GenState
  window : ℕ
  maxBufferSize : ℕ
  buffer : List BufferEntry
  pivot : Option Pivot
  pivotBid : ℚ
  pivotAsk : ℚ
  bestBid : ℚ
  bestAsk : ℚ
deriving DecidableEq, Repr

/-- The `PriceModel` constructor: seed the generator at
`(startPrice, startPrice + spread.base)` and pre-fill the buffer to its full
capacity `2 × windowSeconds + 1` with identical entries. -/
def initPriceModel (startPrice spreadBase : ℚ) (windowSeconds : ℕ) : PMState :=
  let baseBid := startPrice
  let baseAsk := baseBid + spreadBase
  { gen := { bid := baseBid, ask := baseAsk }
    window := windowSeconds
    maxBufferSize := 2 * windowSeconds + 1
    buffer := List.replicate (2 * windowSeconds + 1)
        { bid := baseBid, ask := baseAsk, mid := (baseBid + baseAsk) / 2 }
    pivot := Option.none
    pivotBid := baseBid
    pivotAsk := baseAsk
    bestBid := baseBid
    bestAsk := baseAsk }

/-- The per-step bid/ask/mid/best selection of `PriceModel.update`: take the
last tick as authoritative with a volume-weighted mid, or reuse the previous
buffer entry (and previous best prices) when no tick occurred. -/
def stepValues (st : PMState) (g' : GenState) (ticks : List Tick) :
    ℚ × ℚ × ℚ × ℚ × ℚ :=
  match ticks.getLast? with
  | some last =>
      (last.priceBid, last.priceAsk,
       getVolumeWeightedMid g' (last.sizeBid : ℚ) (last.sizeAsk : ℚ),
       last.priceBid, last.priceAsk)
  | Option.none =>
      let lastEntry := st.buffer.getLastD { bid := 0, ask := 0, mid := 0 }
      (lastEntry.bid, lastEntry.ask, lastEntry.mid, st.bestBid, st.bestAsk)

/-- The buffer push of `PriceModel.update`: append the new entry, then drop the
oldest entry once the capacity is exceeded. -/
def pushEntry (st : PMState) (entry : BufferEntry) : List BufferEntry :=
  let buf1 := st.buffer ++ [entry]
  if st.maxBufferSize < buf1.length then buf1.tail else buf1

/-- `PriceModel.update()`. The scheduler lookup and wall clock are externalized:
`samples`/`targetPrice`/`sign`/`ts` are what the scheduler and the sampling
produced for this step. Generates ticks, takes the last tick as the step's
bid/ask with a volume-weighted mid (or reuses the previous buffer entry when no
tick occurred), pushes into the buffer dropping the oldest entry, and runs
pivot detection whenever the buffer is exactly full. -/
def PMState.update (st : PMState) (samples : List RawTick) (targetPrice : Option ℚ)
    (sign : Sign) (ts : ℚ) : PMState :=
  let res := stepSecond ts targetPrice samples sign st.gen
  let step := stepValues st res.1 res.2
  let buf2 := pushEntry st { bid := step.1, ask := step.2.1, mid := step.2.2.1 }
  let pivotFields :=
    if buf2.length = st.maxBufferSize then
      let centre := buf2.getD st.window { bid := 0, ask := 0, mid := 0 }
      (detectPivot buf2 st.window, centre.bid, centre.ask)
    else (st.pivot, st.pivotBid, st.pivotAsk)
  { gen := res.1
    window := st.window
    maxBufferSize := st.maxBufferSize
    buffer := buf2
    pivot := pivotFields.1
    pivotBid := pivotFields.2.1
    pivotAsk := pivotFields.2.2
    bestBid := step.2.2.2.1
    bestAsk := step.2.2.2.2 }

/-- One `PriceModel.update()` step on which the generator produced no ticks
(`sampleNbUpdates` drew 0 — with an empty model the Poisson rate is 0 and the
sampler always returns 0, so a pure ranging run with no model data takes this
branch every second): prices are reused and the mid never changes. -/
def flatStep (st : PMState) : PMState := st.update [] Option.none Sign.F 0

/-- Membership of a time in a segment's half-open range `[startTime, endTime)`. -/
def inSeg (s : RegimeSegment) (x : ℚ) : Prop := s.startTime ≤ x ∧ x < s.endTime

/-- A time is covered by a timeline when some segment's range contains it. -/
def covers (tl : List RegimeSegment) (x : ℚ) : Prop := ∃ s ∈ tl, inSeg s x

/-- Contiguity of a timeline from a given instant: each segment starts exactly
where the previous one ended (the first at the given instant) and no segment
ends before it starts. -/
def chainFrom : ℚ → List RegimeSegment → Prop
  | _, [] => True
  | t, s :: rest => s.startTime = t ∧ t ≤ s.endTime ∧ chainFrom s.endTime rest

/-- End of the last segment of a timeline, or the given instant when empty. -/
def lastEndFrom : ℚ → List RegimeSegment → ℚ
  | t, [] => t
  | _, s :: rest => lastEndFrom s.endTime rest

/-- Two segments are non-overlapping when no time lies in both. -/
def segDisjoint (a b : RegimeSegment) : Prop := ∀ x : ℚ, ¬(inSeg a x ∧ inSeg b x)

/-- The invariant claimed for a built timeline: contiguous from 0, pairwise
non-overlapping, and covering exactly `[0, duration)`. -/
def timelinePartitions (tl : List RegimeSegment) (duration : ℚ) : Prop :=
  chainFrom 0 tl ∧ List.Pairwise segDisjoint tl ∧
    ∀ x : ℚ, covers tl x ↔ 0 ≤ x ∧ x < duration

/-- A ranging gap segment, as pushed by the timeline-building loop. -/
def rangingSeg (a b : ℚ) : RegimeSegment :=
  { startTime := a, endTime := b, regime := ("N", "O"), sign := Sign.F,
    targetPrice := Option.none, description := "Ranging period" }

/-- The trailing ranging segment, as pushed after the last event. -/
def postSeg (a b : ℚ) : RegimeSegment :=
  { startTime := a, endTime := b, regime := ("N", "O"), sign := Sign.F,
    targetPrice := Option.none, description := "Post-breakout ranging" }

/-- Start time drawn for the primary breakout: uniform in the configured window. -/
def mainStartTime (sc : MarketScenario) (r : ℚ) : ℚ :=
  sc.breakout.timeWindow.1 + r * (sc.breakout.timeWindow.2 - sc.breakout.timeWindow.1)

/-- End time of the primary breakout: start plus the speed-policy duration,
clipped to the scenario duration. -/
def mainEndTime (sc : MarketScenario) (r : ℚ) : ℚ :=
  min (mainStartTime sc r + calculateBreakoutDuration sc.breakout.speed |sc.breakout.magnitude|)
    sc.duration

/-- Target price of the primary breakout. -/
def mainTarget (sc : MarketScenario) : ℚ := sc.startPrice * (1 + sc.breakout.magnitude / 100)

/-- The primary breakout's timeline segment. -/
def mainSeg (sc : MarketScenario) (r : ℚ) : RegimeSegment :=
  { startTime := mainStartTime sc r, endTime := mainEndTime sc r, regime := ("N", "B"),
    sign := if mainTarget sc > sc.startPrice then Sign.U else Sign.D,
    targetPrice := some (mainTarget sc),
    description :=
      if mainTarget sc > sc.startPrice then "Main bullish breakout" else "Main bearish breakout" }

/-- A scenario whose single fake breakout overruns the scenario duration:
no primary breakout, 60 s duration, and a fake breakout pinned at t = 55 s whose
gradual excursion lasts 15 s and whose reversal adds 5 s more. -/
def fakeOverrunScenario : MarketScenario :=
  { startPrice := 100
    duration := 60
    breakout :=
      { btype := BreakoutType.none, timeWindow := (0, 0), magnitude := 0,
        speed := BreakoutSpeed.gradual, preWarning := Option.none, notification := false }
    spread :=
      { base := 2/100, volatilityMultiplier := 1, minSpread := 1/100, maxSpread := 5/100 }
    fakeBreakouts := [{ timeWindow := (55, 55), magnitude := 1, reversalSpeed := 5 }] }

/-- A scenario whose fake breakout overlaps both the primary breakout and the
trailing ranging segment: a large fake pinned at t = 10 s (30 s excursion plus
5 s reversal, covering [10,45)) together with an instant primary breakout at
t = 42 s, in a 44.5 s scenario. -/
def overlapScenario : MarketScenario :=
  { startPrice := 100
    duration := 89/2
    breakout :=
      { btype := BreakoutType.bullish, timeWindow := (42, 42), magnitude := 1,
        speed := BreakoutSpeed.instant, preWarning := Option.none, notification := false }
    spread :=
      { base := 2/100, volatilityMultiplier := 1, minSpread := 1/100, maxSpread := 5/100 }
    fakeBreakouts := [{ timeWindow := (10, 10), magnitude := 4, reversalSpeed := 5 }] }

/-! ## Timeline chain lemmas -/

theorem chainFrom_le_lastEndFrom (tl : List RegimeSegment) :
    ∀ t : ℚ, chainFrom t tl → t ≤ lastEndFrom t tl := by
  induction tl with
  | nil => intro t _; simp [lastEndFrom]
  | cons s rest ih =>
    intro t h
    obtain ⟨_, hte, hrest⟩ := h
    simpa [lastEndFrom] using le_trans hte (ih s.endTime hrest)

theorem chainFrom_start_ge (tl : List RegimeSegment) :
    ∀ t : ℚ, chainFrom t tl → ∀ s ∈ tl, t ≤ s.startTime := by
  induction tl with
  | nil => intro t _ s hs; exact absurd hs (List.not_mem_nil s)
  | cons s0 rest ih =>
    intro t h s hs
    obtain ⟨hs0, hte, hrest⟩ := h
    rcases List.mem_cons.mp hs with rfl | hmem
    · exact le_of_eq hs0.symm
    · exact le_trans hte (ih s0.endTime hrest s hmem)

theorem chainFrom_end_le (tl : List RegimeSegment) :
    ∀ t : ℚ, chainFrom t tl → ∀ s ∈ tl, s.endTime ≤ lastEndFrom t tl := by
  induction tl with
  | nil => intro t _ s hs; exact absurd hs (List.not_mem_nil s)
  | cons s0 rest ih =>
    intro t h s hs
    obtain ⟨_, _, hrest⟩ := h
    rcases List.mem_cons.mp hs with rfl | hmem
    · simpa [lastEndFrom] using chainFrom_le_lastEndFrom rest s.endTime hrest
    · simpa [lastEndFrom] using ih s0.endTime hrest s hmem

theorem chainFrom_covers_iff (tl : List RegimeSegment) :
    ∀ t : ℚ, chainFrom t tl → ∀ x : ℚ, covers tl x ↔ t ≤ x ∧ x < lastEndFrom t tl := by
  induction tl with
  | nil =>
    intro t _ x
    simp only [covers, lastEndFrom]
    constructor
    · rintro ⟨s, hs, _⟩; exact absurd hs (List.not_mem_nil s)
    · rintro ⟨h1, h2⟩; exact absurd (lt_of_le_of_lt h1 h2) (lt_irrefl t)
  | cons s0 rest ih =>
    intro t h x
    obtain ⟨hs0, hte, hrest⟩ := h
    have hlast : s0.endTime ≤ lastEndFrom s0.endTime rest :=
      chainFrom_le_lastEndFrom rest s0.endTime hrest
    simp only [lastEndFrom]
    constructor
    · rintro ⟨s, hs, hin⟩
      rcases List.mem_cons.mp hs with rfl | hmem
      · exact ⟨hs0 ▸ hin.1, lt_of_lt_of_le hin.2 hlast⟩
      · have := (ih s0.endTime hrest x).mp ⟨s, hmem, hin⟩
        exact ⟨le_trans hte this.1, this.2⟩
    · rintro ⟨h1, h2⟩
      by_cases hx : x < s0.endTime
      · exact ⟨s0, List.mem_cons_self s0 rest, hs0 ▸ h1, hx⟩
      · obtain ⟨s, hmem, hin⟩ := (ih s0.endTime hrest x).mpr ⟨not_lt.mp hx, h2⟩
        exact ⟨s, List.mem_cons_of_mem s0 hmem, hin⟩

theorem chainFrom_pairwise (tl : List RegimeSegment) :
    ∀ t : ℚ, chainFrom t tl → List.Pairwise segDisjoint tl := by
  induction tl with
  | nil => intro t _; exact List.Pairwise.nil
  | cons s0 rest ih =>
    intro t h
    obtain ⟨_, _, hrest⟩ := h
    refine List.Pairwise.cons ?_ (ih s0.endTime hrest)
    intro s hmem x ⟨hin0, hin⟩
    have h1 : x < s0.endTime := hin0.2
    have h2 : s0.endTime ≤ s.startTime := chainFrom_start_ge rest s0.endTime hrest s hmem
    exact absurd hin.1 (not_le.mpr (lt_of_lt_of_le h1 h2))

theorem chain_partitions (tl : List RegimeSegment) (d : ℚ)
    (hc : chainFrom 0 tl) (hl : lastEndFrom 0 tl = d) : timelinePartitions tl d := by
  refine ⟨hc, chainFrom_pairwise tl 0 hc, fun x => ?_⟩
  rw [← hl]
  exact chainFrom_covers_iff tl 0 hc x

/-! ## Shape of the schedule output for scenarios without fake breakouts -/

theorem calculateBreakoutDuration_pos (speed : BreakoutSpeed) (m : ℚ) :
    0 < calculateBreakoutDuration speed m := by
  cases speed <;> simp [calculateBreakoutDuration, lt_max_iff]

theorem schedule_timeline_noneType (sc : MarketScenario) (r : ℚ) (frs : List ℚ)
    (prev : Option BreakoutEvent) (hf : sc.fakeBreakouts = [])
    (ht : sc.breakout.btype = BreakoutType.none) :
    (schedule sc r frs prev).timeline =
      if 0 < sc.duration then [postSeg 0 sc.duration] else [] := by
  simp [schedule, hf, ht, sortEvents, postSeg]

theorem schedule_timeline_mainType (sc : MarketScenario) (r : ℚ) (frs : List ℚ)
    (prev : Option BreakoutEvent) (hf : sc.fakeBreakouts = [])
    (ht : sc.breakout.btype ≠ BreakoutType.none) :
    (schedule sc r frs prev).timeline =
      (if 0 < mainStartTime sc r then [rangingSeg 0 (mainStartTime sc r)] else []) ++
      [mainSeg sc r] ++
      (if mainEndTime sc r < sc.duration then [postSeg (mainEndTime sc r) sc.duration]
       else []) := by
  simp only [schedule, hf, ht, ne_eq, not_false_iff, if_true, List.zip_nil_left,
    List.foldr_nil, List.nil_append, sortEvents, List.foldl_cons, List.foldl_nil,
    insertSorted, buildStep, mainSeg, mainStartTime, mainEndTime, mainTarget,
    rangingSeg, postSeg]
  by_cases h1 : (0:ℚ) < sc.breakout.timeWindow.1 + r * (sc.breakout.timeWindow.2 - sc.breakout.timeWindow.1) <;>
  by_cases h2 : sc.breakout.timeWindow.1 + r * (sc.breakout.timeWindow.2 - sc.breakout.timeWindow.1) +
      calculateBreakoutDuration sc.breakout.speed |sc.breakout.magnitude| < sc.duration <;>
    simp [h1, h2, List.append_assoc]

theorem schedule_breakoutEvent_mainType (sc : MarketScenario) (r : ℚ) (frs : List ℚ)
    (prev : Option BreakoutEvent) (ht : sc.breakout.btype ≠ BreakoutType.none) :
    (schedule sc r frs prev).breakoutEvent =
      some { startTime := mainStartTime sc r, endTime := mainEndTime sc r,
             btype := sc.breakout.btype, targetPrice := mainTarget sc,
             speed := sc.breakout.speed } := by
  simp [schedule, ht, mainStartTime, mainEndTime, mainTarget]

theorem mainStartTime_bounds (sc : MarketScenario) (r : ℚ)
    (h0 : 0 ≤ sc.breakout.timeWindow.1)
    (h1 : sc.breakout.timeWindow.1 ≤ sc.breakout.timeWindow.2)
    (h2 : sc.breakout.timeWindow.2 ≤ sc.duration)
    (hr0 : 0 ≤ r) (hr1 : r < 1) :
    0 ≤ mainStartTime sc r ∧ mainStartTime sc r ≤ sc.breakout.timeWindow.2 := by
  unfold mainStartTime
  constructor
  · have := mul_nonneg hr0 (sub_nonneg.mpr h1)
    linarith
  · have := mul_le_mul_of_nonneg_right (le_of_lt hr1) (sub_nonneg.mpr h1)
    nlinarith

theorem schedule_noFakes_chain (sc : MarketScenario) (r : ℚ) (frs : List ℚ)
    (prev : Option BreakoutEvent) (hf : sc.fakeBreakouts = [])
    (h0 : 0 ≤ sc.breakout.timeWindow.1)
    (h1 : sc.breakout.timeWindow.1 ≤ sc.breakout.timeWindow.2)
    (h2 : sc.breakout.timeWindow.2 ≤ sc.duration)
    (hr0 : 0 ≤ r) (hr1 : r < 1) :
    chainFrom 0 (schedule sc r frs prev).timeline ∧
    lastEndFrom 0 (schedule sc r frs prev).timeline = sc.duration := by
  have hd0 : (0:ℚ) ≤ sc.duration := le_trans (le_trans h0 h1) h2
  by_cases ht : sc.breakout.btype = BreakoutType.none
  · rw [schedule_timeline_noneType sc r frs prev hf ht]
    by_cases hd : (0:ℚ) < sc.duration
    · simp [hd, chainFrom, lastEndFrom, postSeg, le_of_lt hd]
    · have : sc.duration = 0 := le_antisymm (not_lt.mp hd) hd0
      simp [hd, chainFrom, lastEndFrom, this]
  · rw [schedule_timeline_mainType sc r frs prev hf ht]
    obtain ⟨hs0, hsw⟩ := mainStartTime_bounds sc r h0 h1 h2 hr0 hr1
    set s := mainStartTime sc r with hs_def
    set e := mainEndTime sc r with he_def
    have hsd : s ≤ sc.duration := le_trans hsw h2
    have hbd : 0 < calculateBreakoutDuration sc.breakout.speed |sc.breakout.magnitude| :=
      calculateBreakoutDuration_pos _ _
    have hse : s ≤ e := by
      rw [he_def, mainEndTime, ← hs_def]
      exact le_min (by linarith) hsd
    have hed : e ≤ sc.duration := min_le_right _ _
    have h0e : (0:ℚ) ≤ e := le_trans hs0 hse
    by_cases hc1 : (0:ℚ) < s <;> by_cases hc2 : e < sc.duration
    · simp [hc1, hc2, chainFrom, lastEndFrom, rangingSeg, postSeg, mainSeg, ← hs_def,
        ← he_def, le_of_lt hc1, hse, hed]
    · have : e = sc.duration := le_antisymm hed (not_lt.mp hc2)
      simp [hc1, hc2, chainFrom, lastEndFrom, rangingSeg, mainSeg, ← hs_def, ← he_def,
        le_of_lt hc1, hse, hsd, this]
    · have : s = 0 := le_antisymm (not_lt.mp hc1) hs0
      simp [hc1, hc2, chainFrom, lastEndFrom, postSeg, mainSeg, ← hs_def, ← he_def,
        hse, hed, h0e, this]
    · have hs' : s = 0 := le_antisymm (not_lt.mp hc1) hs0
      have he' : e = sc.duration := le_antisymm hed (not_lt.mp hc2)
      simp [hc1, hc2, chainFrom, lastEndFrom, mainSeg, ← hs_def, ← he_def, hse, hd0, hs', he']

/-- Claim C1 (amended): for every scenario without fake breakouts whose breakout
time window satisfies `0 ≤ min ≤ max ≤ duration`, and every uniform draw
`r ∈ [0,1)`, the timeline produced by `RegimeScheduler.schedule` is contiguous
(first segment starts at 0 and each segment starts where the previous one ends),
pairwise non-overlapping, and covers exactly `[0, duration)`. With fake
breakouts the invariant fails (see the counterexample theorem). -/
theorem claim_C1_timeline_partition (sc : MarketScenario) (r : ℚ) (frs : List ℚ)
    (prev : Option BreakoutEvent) (hf : sc.fakeBreakouts = [])
    (h0 : 0 ≤ sc.breakout.timeWindow.1)
    (h1 : sc.breakout.timeWindow.1 ≤ sc.breakout.timeWindow.2)
    (h2 : sc.breakout.timeWindow.2 ≤ sc.duration)
    (hr0 : 0 ≤ r) (hr1 : r < 1) :
    timelinePartitions (schedule sc r frs prev).timeline sc.duration := by
  obtain ⟨hc, hl⟩ := schedule_noFakes_chain sc r frs prev hf h0 h1 h2 hr0 hr1
  exact chain_partitions _ _ hc hl

/-- Claim C1 witness: the amended invariant, instantiated on the bullish-breakout
factory scenario with draw `r = 1/2`. -/
theorem claim_C1_timeline_partition_witness :
    timelinePartitions (schedule createBullishBreakout (1/2) [] Option.none).timeline
      createBullishBreakout.duration :=
  claim_C1_timeline_partition createBullishBreakout (1/2) [] Option.none rfl
    (by norm_num [createBullishBreakout]) (by norm_num [createBullishBreakout])
    (by norm_num [createBullishBreakout]) (by norm_num) (by norm_num)

/-- Claim C1 counterexample: on a scenario whose fake breakout is pinned at
t = 55 s of a 60 s run, the built timeline contains a segment `[70, 75)` lying
entirely beyond the scenario duration, so the segments' union is not
`[0, duration)`. This refutes the claim for scenarios with fake breakouts. -/
theorem claim_C1_counterexample :
    ¬ timelinePartitions (schedule fakeOverrunScenario 0 [0] Option.none).timeline
        fakeOverrunScenario.duration := by
  have htl : (schedule fakeOverrunScenario 0 [0] Option.none).timeline =
      [rangingSeg 0 55,
       { startTime := 55, endTime := 70, regime := ("N", "B"), sign := Sign.U,
         targetPrice := some (101 : ℚ), description := "Fake breakout" },
       { startTime := 70, endTime := 75, regime := ("N", "B"), sign := Sign.D,
         targetPrice := some (100 : ℚ), description := "Fake breakout" }] := by
    norm_num [schedule, fakeOverrunScenario, sortEvents, insertSorted, buildStep,
      calculateBreakoutDuration, rangingSeg, min_def, max_def]
  intro h
  have hcov := (h.2.2 70).mp
    ⟨{ startTime := 70, endTime := 75, regime := ("N", "B"), sign := Sign.D,
       targetPrice := some (100 : ℚ), description := "Fake breakout" },
     by rw [htl]; exact List.mem_cons_of_mem _ (List.mem_cons_of_mem _ (List.mem_cons_self _ _)),
     by norm_num [inSeg]⟩
  have hdur : fakeOverrunScenario.duration = 60 := rfl
  rw [hdur] at hcov
  exact absurd hcov.2 (by norm_num)

/-! ## getCurrentRegime lookup lemmas -/

theorem mem_of_getLast?_eq {α : Type} (tl : List α) :
    ∀ ls : α, tl.getLast? = some ls → ls ∈ tl := by
  induction tl with
  | nil => intro ls h; simp at h
  | cons s rest ih =>
    intro ls h
    cases rest with
    | nil =>
      rw [List.getLast?_singleton, Option.some.injEq] at h
      exact h ▸ List.mem_cons_self s []
    | cons s1 rest1 =>
      rw [List.getLast?_cons_cons] at h
      exact List.mem_cons_of_mem s (ih ls h)

theorem findSegment_eq_none (t : ℚ) (tl : List RegimeSegment)
    (h : ∀ s ∈ tl, ¬ inSeg s t) : findSegment t tl = Option.none := by
  induction tl with
  | nil => rfl
  | cons s rest ih =>
    have hs := h s (List.mem_cons_self s rest)
    rw [inSeg] at hs
    simp only [findSegment]
    rw [if_neg hs]
    exact ih fun s' hs' => h s' (List.mem_cons_of_mem s hs')

theorem findSegment_chain_last (tl : List RegimeSegment) :
    ∀ t0 : ℚ, chainFrom t0 tl → ∀ ls : RegimeSegment, tl.getLast? = some ls →
      ∀ y : ℚ, inSeg ls y → findSegment y tl = some ls := by
  induction tl with
  | nil => intro t0 _ ls hl; simp at hl
  | cons s rest ih =>
    intro t0 hchain ls hl y hy
    obtain ⟨_, _, hrest⟩ := hchain
    cases rest with
    | nil =>
      rw [List.getLast?_singleton, Option.some.injEq] at hl
      subst hl
      simp only [findSegment]
      rw [if_pos ⟨hy.1, hy.2⟩]
    | cons s1 rest1 =>
      rw [List.getLast?_cons_cons] at hl
      have hmem : ls ∈ s1 :: rest1 := mem_of_getLast?_eq _ ls hl
      have hstart : s.endTime ≤ ls.startTime := chainFrom_start_ge _ _ hrest ls hmem
      have hns : ¬ (s.startTime ≤ y ∧ y < s.endTime) := by
        rintro ⟨_, hlt⟩
        exact absurd hy.1 (not_le.mpr (lt_of_lt_of_le hlt hstart))
      simp only [findSegment]
      rw [if_neg hns]
      exact ih s.endTime hrest ls hl y hy

theorem getCurrentRegime_saturates (tl : List RegimeSegment) (t0 : ℚ)
    (hc : chainFrom t0 tl) (ls : RegimeSegment) (hl : tl.getLast? = some ls)
    (x y : ℚ) (hx : lastEndFrom t0 tl ≤ x) (hy : inSeg ls y) :
    getCurrentRegime tl x = getCurrentRegime tl y := by
  cases tl with
  | nil => simp at hl
  | cons s rest =>
    have hfx : findSegment x (s :: rest) = Option.none := by
      apply findSegment_eq_none
      intro s' hs' hin
      have := chainFrom_end_le (s :: rest) t0 hc s' hs'
      exact absurd hin.2 (not_lt.mpr (le_trans this hx))
    have hfy := findSegment_chain_last (s :: rest) t0 hc ls hl y hy
    simp only [getCurrentRegime, hfx, hfy, hl]

/-- Claim C8 (amended): for every scenario without fake breakouts whose breakout
window satisfies `0 ≤ min ≤ max ≤ duration`, with positive duration and draw
`r ∈ [0,1)`, `getCurrentRegime` saturates at the tail: for every
`elapsedTime ≥ duration` it returns the same `{regime, sign, targetPrice}` as at
`duration − ε`, for any `ε > 0` with `duration − ε` inside the last timeline
segment. With fake breakouts the timeline may overlap itself and the claim
fails (see the counterexample theorem). -/
theorem claim_C8_tail_saturation (sc : MarketScenario) (r : ℚ) (frs : List ℚ)
    (prev : Option BreakoutEvent) (hf : sc.fakeBreakouts = [])
    (h0 : 0 ≤ sc.breakout.timeWindow.1)
    (h1 : sc.breakout.timeWindow.1 ≤ sc.breakout.timeWindow.2)
    (h2 : sc.breakout.timeWindow.2 ≤ sc.duration)
    (hr0 : 0 ≤ r) (hr1 : r < 1) (hdur : 0 < sc.duration)
    (t ε : ℚ) (ht : sc.duration ≤ t) (hε : 0 < ε) (ls : RegimeSegment)
    (hl : (schedule sc r frs prev).timeline.getLast? = some ls)
    (hin : inSeg ls (sc.duration - ε)) :
    getCurrentRegime (schedule sc r frs prev).timeline t =
      getCurrentRegime (schedule sc r frs prev).timeline (sc.duration - ε) := by
  obtain ⟨hc, hle⟩ := schedule_noFakes_chain sc r frs prev hf h0 h1 h2 hr0 hr1
  exact getCurrentRegime_saturates _ 0 hc ls hl t _ (by rw [hle]; exact ht) hin

/-- Claim C8 witness: tail saturation on the ranging factory scenario, comparing
elapsed time 70 s against `duration − 1 = 59` s. -/
theorem claim_C8_tail_saturation_witness :
    getCurrentRegime (schedule createRangingScenario (1/2) [] Option.none).timeline 70 =
      getCurrentRegime (schedule createRangingScenario (1/2) [] Option.none).timeline
        (createRangingScenario.duration - 1) :=
  claim_C8_tail_saturation createRangingScenario (1/2) [] Option.none rfl
    (by norm_num [createRangingScenario]) (by norm_num [createRangingScenario])
    (by norm_num [createRangingScenario]) (by norm_num) (by norm_num)
    (by norm_num [createRangingScenario]) 70 1 (by norm_num [createRangingScenario])
    (by norm_num) (postSeg 0 60)
    (by rw [schedule_timeline_noneType createRangingScenario (1/2) [] Option.none rfl rfl]
        norm_num [createRangingScenario])
    (by norm_num [inSeg, postSeg, createRangingScenario])

/-- Claim C8 counterexample: on a scenario whose fake breakout overlaps the
tail of the timeline, the claim as stated fails. The scenario has duration
44.5 s, an instant primary breakout at t = 42 s and a fake breakout covering
[10,45). For elapsed time 100 ≥ duration the lookup saturates to the last
segment (ranging, sign F, no target), yet `duration − ε = 44.2` for `ε = 0.3`
lies inside the last segment `[44, 44.5)` and its lookup hits the earlier
overlapping fake-reversal segment `[40, 45)` (breakout regime, sign D,
target 100), so the two results differ. -/
theorem claim_C8_counterexample :
    (0:ℚ) < overlapScenario.duration ∧
    overlapScenario.duration ≤ 100 ∧
    (0:ℚ) < 3/10 ∧
    (schedule overlapScenario 0 [0] Option.none).timeline.getLast? =
      some (postSeg 44 (89/2)) ∧
    inSeg (postSeg 44 (89/2)) (overlapScenario.duration - 3/10) ∧
    getCurrentRegime (schedule overlapScenario 0 [0] Option.none).timeline 100 ≠
      getCurrentRegime (schedule overlapScenario 0 [0] Option.none).timeline
        (overlapScenario.duration - 3/10) := by
  have htl : (schedule overlapScenario 0 [0] Option.none).timeline =
      [rangingSeg 0 10,
       { startTime := 10, endTime := 40, regime := ("N", "B"), sign := Sign.U,
         targetPrice := some (104 : ℚ), description := "Fake breakout" },
       { startTime := 40, endTime := 45, regime := ("N", "B"), sign := Sign.D,
         targetPrice := some (100 : ℚ), description := "Fake breakout" },
       { startTime := 42, endTime := 44, regime := ("N", "B"), sign := Sign.U,
         targetPrice := some (101 : ℚ), description := "Main bullish breakout" },
       postSeg 44 (89/2)] := by
    have hb : (BreakoutType.bullish = BreakoutType.none) = False := by
      simp only [eq_iff_iff, iff_false]
      decide
    norm_num [schedule, overlapScenario, sortEvents, insertSorted, buildStep,
      calculateBreakoutDuration, rangingSeg, postSeg, min_def, max_def, hb]
  refine ⟨by norm_num [overlapScenario], by norm_num [overlapScenario], by norm_num,
    ?_, by norm_num [inSeg, postSeg, overlapScenario], ?_⟩
  · rw [htl]
    rfl
  · rw [htl]
    norm_num [getCurrentRegime, findSegment, rangingSeg, postSeg, overlapScenario]
    exact fun h => absurd h (by decide)

/-! ## Breakout event recording (C4) -/

/-- Claim C4: for the bullish factory scenario (startPrice 100, magnitude 1 %,
window [20,40]) the scheduler records exactly one `BreakoutEvent` whose target
price is 101 and whose start time lies in `[20, 40)` for every uniform draw
`r ∈ [0,1)`; in general the speed policy is `instant → 2`,
`gradual → clamp(10 + m×5, 8, 30)`, `accelerating → clamp(15 + m×8, 10, 40)`,
and the recorded event has `targetPrice = startPrice × (1 + magnitude/100)`,
`startTime` drawn in the window and `endTime = min(start + duration policy,
scenario duration)`. -/
theorem claim_C4_breakout_event (r : ℚ) (hr0 : 0 ≤ r) (hr1 : r < 1) :
    (∃ e : BreakoutEvent,
        (schedule createBullishBreakout r [] Option.none).breakoutEvent = some e ∧
        e.targetPrice = 101 ∧ 20 ≤ e.startTime ∧ e.startTime < 40) ∧
    (∀ m : ℚ,
        calculateBreakoutDuration BreakoutSpeed.instant m = 2 ∧
        calculateBreakoutDuration BreakoutSpeed.gradual m = max 8 (min 30 (10 + m * 5)) ∧
        calculateBreakoutDuration BreakoutSpeed.accelerating m = max 10 (min 40 (15 + m * 8))) ∧
    (∀ (sc : MarketScenario) (r' : ℚ) (frs : List ℚ) (prev : Option BreakoutEvent),
        sc.breakout.btype ≠ BreakoutType.none →
        ∃ e : BreakoutEvent, (schedule sc r' frs prev).breakoutEvent = some e ∧
          e.targetPrice = sc.startPrice * (1 + sc.breakout.magnitude / 100) ∧
          e.startTime = mainStartTime sc r' ∧
          e.endTime = min (mainStartTime sc r' +
              calculateBreakoutDuration sc.breakout.speed |sc.breakout.magnitude|)
            sc.duration) := by
  refine ⟨?_, ?_, ?_⟩
  · refine ⟨_, schedule_breakoutEvent_mainType createBullishBreakout r [] Option.none
      (by intro h; exact absurd h (by decide)), ?_, ?_, ?_⟩
    · norm_num [mainTarget, createBullishBreakout]
    · show (20:ℚ) ≤ mainStartTime createBullishBreakout r
      have : (0:ℚ) ≤ r * 20 := by positivity
      norm_num [mainStartTime, createBullishBreakout]
      linarith
    · show mainStartTime createBullishBreakout r < 40
      have : r * 20 < 20 := by nlinarith
      norm_num [mainStartTime, createBullishBreakout]
      linarith
  · intro m
    exact ⟨rfl, rfl, rfl⟩
  · intro sc r' frs prev ht
    exact ⟨_, schedule_breakoutEvent_mainType sc r' frs prev ht, by simp [mainTarget], rfl,
      by simp [mainEndTime]⟩

/-- Claim C4 witness: the bullish factory scenario at draw `r = 1/2`. -/
theorem claim_C4_breakout_event_witness :
    ∃ e : BreakoutEvent,
      (schedule createBullishBreakout (1/2) [] Option.none).breakoutEvent = some e ∧
      e.targetPrice = 101 ∧ 20 ≤ e.startTime ∧ e.startTime < 40 :=
  (claim_C4_breakout_event (1/2) (by norm_num) (by norm_num)).1

/-! ## Spread floor (C3) -/

theorem round2_add_cent (b a : ℚ) (h : b + 1/100 ≤ a) :
    round2 b + 1/100 ≤ round2 a := by
  unfold round2
  have hfl : ⌊b * 100 + 1/2⌋ + 1 ≤ ⌊a * 100 + 1/2⌋ := by
    have h1 : ⌊b * 100 + 1/2 + ((1:ℤ):ℚ)⌋ = ⌊b * 100 + 1/2⌋ + 1 :=
      Int.floor_add_int (b * 100 + 1/2) 1
    have h2 : b * 100 + 1/2 + ((1:ℤ):ℚ) ≤ a * 100 + 1/2 := by push_cast; linarith
    calc ⌊b * 100 + 1/2⌋ + 1 = ⌊b * 100 + 1/2 + ((1:ℤ):ℚ)⌋ := h1.symm
      _ ≤ ⌊a * 100 + 1/2⌋ := Int.floor_le_floor h2
  have hq : ((⌊b * 100 + 1/2⌋ : ℚ) + 1) ≤ (⌊a * 100 + 1/2⌋ : ℚ) := by exact_mod_cast hfl
  linarith

/-- Claim C3: every tick emitted by `QuoteGenerator.stepSecond` has
`priceAsk ≥ priceBid + 0.01`, for every sampled raw tick sequence — including
zero or negative sampled spreads — every target-price option, sign and
generator state: the ask floor `max(bid + spread, bid + 0.01)` survives the
cent rounding of both sides. -/
theorem claim_C3_spread_floor (samples : List RawTick) :
    ∀ (ts : ℚ) (target : Option ℚ) (sgn : Sign) (g : GenState),
      ∀ tick ∈ (stepSecond ts target samples sgn g).2,
        tick.priceBid + 1/100 ≤ tick.priceAsk := by
  induction samples with
  | nil =>
    intro ts target sgn g tick htick
    simp [stepSecond] at htick
  | cons t rest ih =>
    intro ts target sgn g tick htick
    simp only [stepSecond, List.mem_cons] at htick
    rcases htick with rfl | hmem
    · exact round2_add_cent _ _ (le_max_right _ _)
    · exact ih ts target _ _ tick hmem

/-- Claim C3 witness: a single sampled tick with a negative spread (−0.02) from
bid 100: the emitted tick is (100.00, 100.01) and respects the floor. -/
theorem claim_C3_spread_floor_witness :
    ({ time := 0, priceBid := 100, priceAsk := 10001/100, sizeBid := 50, sizeAsk := 50 } : Tick)
        ∈ (stepSecond 0 Option.none [{ dp := -1/200, spread := -1/50, size := 100 }] Sign.F
            { bid := 100, ask := 5001/50 }).2 ∧
    (100 : ℚ) + 1/100 ≤ 10001/100 := by
  constructor
  · norm_num [stepSecond, round2]
  · have hmem :
        ({ time := 0, priceBid := 100, priceAsk := 10001/100, sizeBid := 50, sizeAsk := 50 } : Tick)
          ∈ (stepSecond 0 Option.none [{ dp := -1/200, spread := -1/50, size := 100 }] Sign.F
              { bid := 100, ask := 5001/50 }).2 := by
      norm_num [stepSecond, round2]
    have := claim_C3_spread_floor [{ dp := -1/200, spread := -1/50, size := 100 }] 0
      Option.none Sign.F { bid := 100, ask := 5001/50 } _ hmem
    simpa using this

/-! ## Target-bias function (C5) -/

/-- Claim C5 (amended): for a positive current price, `biasTowardTarget` agrees
exactly with the specification's formula (bypass within 0.1 % of the current
price, otherwise the convex blend with `biasFactor = 0.7 × clamp(urgency, 0, 1)`
and `stepMagnitude = min(0.05, |distance| × 0.1)`). The code itself omits the
lower clamp at 0 (it computes `min(1, ·)` only), which only differs when the
current price is negative — see the counterexample theorem. -/
theorem claim_C5_bias_blend (g : GenState) (dp target : ℚ) (hpos : 0 < g.bid) :
    biasTowardTarget g dp target = biasTowardTargetSpec g.bid dp target := by
  unfold biasTowardTarget biasTowardTargetSpec
  by_cases h : |target - g.bid| < g.bid * (1/1000)
  · rw [if_pos h, if_pos h]
  · simp only [h, if_false]
    have hnn : (0:ℚ) ≤ min 1 (|target - g.bid| / g.bid * 20) := by
      refine le_min (by norm_num) ?_
      positivity
    rw [max_eq_right hnn]

/-- Claim C5 witness: the blend agreement at bid 100, model delta 0.005,
target 101. -/
theorem claim_C5_bias_blend_witness :
    biasTowardTarget { bid := 100, ask := 5001/50 } (1/200) 101 =
      biasTowardTargetSpec 100 (1/200) 101 :=
  claim_C5_bias_blend { bid := 100, ask := 5001/50 } (1/200) 101 (by norm_num)

/-- Claim C5 counterexample: at a negative current bid (−100, target 0, model
delta 0) the code's unclamped urgency is −20, giving a bias factor of −14 and a
returned delta of −0.7, whereas the claimed clamped formula gives bias factor 0
and returns the model delta 0 unchanged. -/
theorem claim_C5_counterexample :
    biasTowardTarget { bid := -100, ask := -99 } 0 0 = -7/10 ∧
    biasTowardTargetSpec (-100) 0 0 = 0 ∧
    biasTowardTarget { bid := -100, ask := -99 } 0 0 ≠
      biasTowardTargetSpec (-100) 0 0 := by
  refine ⟨?_, ?_, ?_⟩ <;>
    norm_num [biasTowardTarget, biasTowardTargetSpec, ratSign, min_def, max_def]

/-! ## Neutral fallback tick (C6) -/

/-- Claim C6: for every regime+sign key that is absent from the transition table
or mapped to an empty bucket set, `sampleTick` returns exactly the neutral
fallback `{priceDelta 0, spread 0.01, size 100}`, for every random draw — a
defined result, not an error. -/
theorem claim_C6_fallback_tick (m : QuoteModel) (regime : Regime) (sign : Sign) (rand : ℚ)
    (h : m.transition.lookup (regime.1 ++ "," ++ regime.2 ++ "," ++ signStr sign)
           = Option.none ∨
         m.transition.lookup (regime.1 ++ "," ++ regime.2 ++ "," ++ signStr sign)
           = some []) :
    m.sampleTick regime sign rand = { dp := 0, spread := 1/100, size := 100 } := by
  unfold QuoteModel.sampleTick
  rcases h with h | h <;> simp [h]

/-- Claim C6 witness: the empty model (absent data file) at key "N,O,U". -/
theorem claim_C6_fallback_tick_witness :
    QuoteModel.sampleTick { transition := [], ticksPerRegime := [], secondsPerRegime := [] }
      ("N", "O") Sign.U (1/2) = { dp := 0, spread := 1/100, size := 100 } :=
  claim_C6_fallback_tick { transition := [], ticksPerRegime := [], secondsPerRegime := [] }
    ("N", "O") Sign.U (1/2) (Or.inl rfl)

/-! ## Notifier state machine (C7) -/

/-- Claim C7: a second `notifyBreakoutStart` without an intervening completion
emits no event and leaves the state unchanged (duplicate-start suppression:
after any start call the in-progress flag is set, so a repeated start call — for
any arguments — is a no-op), and a `notifyBreakoutCompletion` call while idle is
a no-op, not an error. -/
theorem claim_C7_notifier_no_duplicates :
    (∀ (st : NotifierState) (bt bt' : BreakoutType)
        (cp tp mg ed now cp' tp' mg' ed' now' : ℚ),
        notifyBreakoutStart (notifyBreakoutStart st bt cp tp mg ed now).1
            bt' cp' tp' mg' ed' now' =
          ((notifyBreakoutStart st bt cp tp mg ed now).1, [])) ∧
    (∀ (st : NotifierState) (bt : BreakoutType) (cp tp mg ed now : ℚ),
        st.breakoutInProgress = true →
        notifyBreakoutStart st bt cp tp mg ed now = (st, [])) ∧
    (∀ (st : NotifierState) (bt : BreakoutType) (cp tp mg now : ℚ),
        st.breakoutInProgress = false →
        notifyBreakoutCompletion st bt cp tp mg now = (st, [])) := by
  refine ⟨?_, ?_, ?_⟩
  · intro st bt bt' cp tp mg ed now cp' tp' mg' ed' now'
    by_cases h : st.breakoutInProgress <;> simp [notifyBreakoutStart, h]
  · intro st bt cp tp mg ed now h
    simp [notifyBreakoutStart, h]
  · intro st bt cp tp mg now h
    simp [notifyBreakoutCompletion, h]

/-- Claim C7 witness: duplicate-start suppression and idle completion on the
freshly reset notifier state. -/
theorem claim_C7_notifier_no_duplicates_witness :
    notifyBreakoutStart
        (notifyBreakoutStart
          { lastWarningTime := 0, lastProgressTime := 0, breakoutInProgress := false,
            breakoutStartPrice := 0 } BreakoutType.bullish 100 101 1 15 3).1
        BreakoutType.bullish 100 101 1 15 4 =
      ((notifyBreakoutStart
          { lastWarningTime := 0, lastProgressTime := 0, breakoutInProgress := false,
            breakoutStartPrice := 0 } BreakoutType.bullish 100 101 1 15 3).1, []) ∧
    notifyBreakoutCompletion
        { lastWarningTime := 0, lastProgressTime := 0, breakoutInProgress := false,
          breakoutStartPrice := 0 } BreakoutType.bullish 100 101 1 5 =
      ({ lastWarningTime := 0, lastProgressTime := 0, breakoutInProgress := false,
         breakoutStartPrice := 0 }, []) :=
  ⟨claim_C7_notifier_no_duplicates.1 _ BreakoutType.bullish BreakoutType.bullish
      100 101 1 15 3 100 101 1 15 4,
   claim_C7_notifier_no_duplicates.2.2 _ BreakoutType.bullish 100 101 1 5 rfl⟩

/-! ## Buffer capacity and pivot-guard lemmas (C9, C2, C10) -/

theorem getLast?_replicate_succ {α : Type} (n : ℕ) (a : α) :
    (List.replicate (n + 1) a).getLast? = some a := by
  induction n with
  | zero => rfl
  | succ k ih =>
    rw [List.replicate_succ, List.replicate_succ, List.getLast?_cons_cons,
      ← List.replicate_succ]
    exact ih

theorem foldl_max_replicate (n : ℕ) (m : ℚ) :
    List.foldl max m (List.replicate n m) = m := by
  induction n with
  | zero => rfl
  | succ k ih => rw [List.replicate_succ, List.foldl_cons, max_self]; exact ih

theorem listMax_replicate_succ (n : ℕ) (m : ℚ) :
    listMax (List.replicate (n + 1) m) = m := by
  rw [List.replicate_succ, listMax]
  exact foldl_max_replicate n m

theorem getD_replicate {α : Type} (n i : ℕ) (h : i < n) (a d : α) :
    (List.replicate n a).getD i d = a := by
  rw [List.getD_eq_getElem?_getD, List.getElem?_replicate, if_pos h]
  rfl

theorem detectPivot_replicate (w : ℕ) (e : BufferEntry) :
    detectPivot (List.replicate (2 * w + 1) e) w = some Pivot.PH := by
  unfold detectPivot
  rw [getD_replicate (2 * w + 1) w (by omega), List.map_replicate]
  simp only [listMax_replicate_succ]
  simp

theorem pushEntry_of_full (st : PMState) (entry : BufferEntry)
    (hlen : st.buffer.length = st.maxBufferSize) (hpos : st.buffer ≠ []) :
    pushEntry st entry = st.buffer.tail ++ [entry] ∧
    (pushEntry st entry).length = st.maxBufferSize := by
  obtain ⟨b0, rest, hb⟩ := List.exists_cons_of_ne_nil hpos
  have hcond : st.maxBufferSize < (st.buffer ++ [entry]).length := by
    rw [List.length_append, hlen]; simp
  constructor
  · rw [pushEntry]
    simp only [hcond, if_pos]
    rw [hb]
    rfl
  · rw [pushEntry]
    simp only [hcond, if_pos]
    rw [hb] at hlen ⊢
    simp only [List.cons_append, List.tail_cons, List.length_append, List.length_cons] at hlen ⊢
    simp at hlen ⊢
    omega

theorem update_shift (st : PMState) (samples : List RawTick) (target : Option ℚ)
    (sgn : Sign) (ts : ℚ) (hlen : st.buffer.length = st.maxBufferSize)
    (hpos : st.buffer ≠ []) :
    ∃ e : BufferEntry,
      (st.update samples target sgn ts).buffer = st.buffer.tail ++ [e] ∧
      (st.update samples target sgn ts).buffer.length = st.maxBufferSize ∧
      (st.update samples target sgn ts).pivot =
        detectPivot (st.buffer.tail ++ [e]) st.window ∧
      (st.update samples target sgn ts).window = st.window ∧
      (st.update samples target sgn ts).maxBufferSize = st.maxBufferSize ∧
      (st.update samples target sgn ts).gen =
        (stepSecond ts target samples sgn st.gen).1 := by
  obtain ⟨hpush, hplen⟩ := pushEntry_of_full st
    { bid := (stepValues st (stepSecond ts target samples sgn st.gen).1
        (stepSecond ts target samples sgn st.gen).2).1,
      ask := (stepValues st (stepSecond ts target samples sgn st.gen).1
        (stepSecond ts target samples sgn st.gen).2).2.1,
      mid := (stepValues st (stepSecond ts target samples sgn st.gen).1
        (stepSecond ts target samples sgn st.gen).2).2.2.1 } hlen hpos
  refine ⟨_, hpush, ?_, ?_, rfl, rfl, rfl⟩
  · exact hplen
  · simp only [PMState.update]
    rw [if_pos hplen, hpush]

/-- Claim C9: the `PriceModel` buffer is at full capacity `2×window+1` at all
times: the constructor pre-fills it with identical entries, and on every update
from a full buffer one entry is appended and the oldest dropped, so the length
is preserved and the buffer-full guard holds — the pivot fields are recomputed
by the detection expression on every update, never deferred. -/
theorem claim_C9_buffer_always_full :
    (∀ (startPrice spreadBase : ℚ) (w : ℕ),
        (initPriceModel startPrice spreadBase w).buffer =
          List.replicate (2 * w + 1)
            { bid := startPrice, ask := startPrice + spreadBase,
              mid := (startPrice + (startPrice + spreadBase)) / 2 } ∧
        (initPriceModel startPrice spreadBase w).buffer.length =
          (initPriceModel startPrice spreadBase w).maxBufferSize) ∧
    (∀ (st : PMState) (samples : List RawTick) (target : Option ℚ) (sgn : Sign) (ts : ℚ),
        st.buffer.length = st.maxBufferSize → st.buffer ≠ [] →
        (st.update samples target sgn ts).buffer.length = st.maxBufferSize ∧
        ∃ e : BufferEntry,
          (st.update samples target sgn ts).buffer = st.buffer.tail ++ [e] ∧
          (st.update samples target sgn ts).pivot =
            detectPivot (st.buffer.tail ++ [e]) st.window) := by
  constructor
  · intro sp sb w
    exact ⟨rfl, by simp [initPriceModel]⟩
  · intro st samples target sgn ts hlen hpos
    obtain ⟨e, h1, h2, h3, _, _, _⟩ := update_shift st samples target sgn ts hlen hpos
    exact ⟨h2, e, h1, h3⟩

/-- Claim C9 witness: the buffer invariant at the ranging start state (window 5,
capacity 11) and one concrete update on it. -/
theorem claim_C9_buffer_always_full_witness :
    (initPriceModel 100 (2/100) 5).buffer =
      List.replicate 11
        { bid := (100:ℚ), ask := 100 + 2/100, mid := (100 + (100 + 2/100)) / 2 } ∧
    ((initPriceModel 100 (2/100) 5).update [] Option.none Sign.F 0).buffer.length =
      (initPriceModel 100 (2/100) 5).maxBufferSize :=
  ⟨(claim_C9_buffer_always_full.1 100 (2/100) 5).1,
   (claim_C9_buffer_always_full.2 (initPriceModel 100 (2/100) 5) [] Option.none Sign.F 0
      (by simp [initPriceModel]) (by simp [initPriceModel])).1⟩

theorem flatStep_replicate (st : PMState) (e : BufferEntry) (w : ℕ)
    (hw : st.window = w) (hmax : st.maxBufferSize = 2 * w + 1)
    (hbuf : st.buffer = List.replicate (2 * w + 1) e) :
    (flatStep st).buffer = List.replicate (2 * w + 1) e ∧
    (flatStep st).window = w ∧
    (flatStep st).maxBufferSize = 2 * w + 1 ∧
    (flatStep st).pivot = some Pivot.PH := by
  have hlen : st.buffer.length = st.maxBufferSize := by rw [hbuf, hmax]; simp
  have hpos : st.buffer ≠ [] := by rw [hbuf]; simp
  have hsv : stepValues st (stepSecond 0 Option.none [] Sign.F st.gen).1
      (stepSecond 0 Option.none [] Sign.F st.gen).2 =
      (e.bid, e.ask, e.mid, st.bestBid, st.bestAsk) := by
    show stepValues st st.gen [] = _
    unfold stepValues
    rw [List.getLast?_nil]
    rw [hbuf, List.getLastD_eq_getLast?, getLast?_replicate_succ]
    rfl
  have hx : ({ bid := e.bid, ask := e.ask, mid := e.mid } : BufferEntry) = e := rfl
  have hfull := pushEntry_of_full st e hlen hpos
  have hrep : st.buffer.tail ++ [e] = List.replicate (2 * w + 1) e := by
    rw [hbuf, List.replicate_succ, List.tail_cons, ← List.replicate_succ',
      ← List.replicate_succ]
  refine ⟨?_, hw, hmax, ?_⟩
  · simp only [flatStep, PMState.update, hsv, hx]
    rw [hfull.1, hrep]
  · simp only [flatStep, PMState.update, hsv, hx]
    rw [if_pos hfull.2]
    rw [hfull.1, hrep, hw]
    exact detectPivot_replicate w e

theorem flatRun_invariant (k : ℕ) :
    (flatStep^[k] (initPriceModel 100 (2/100) 5)).buffer =
      List.replicate (2 * 5 + 1)
        { bid := (100:ℚ), ask := 100 + 2/100, mid := (100 + (100 + 2/100)) / 2 } ∧
    (flatStep^[k] (initPriceModel 100 (2/100) 5)).window = 5 ∧
    (flatStep^[k] (initPriceModel 100 (2/100) 5)).maxBufferSize = 2 * 5 + 1 := by
  induction k with
  | zero => exact ⟨rfl, rfl, rfl⟩
  | succ m ih =>
    obtain ⟨hb, hw, hm⟩ := ih
    rw [Function.iterate_succ_apply']
    obtain ⟨h1, h2, h3, _⟩ := flatStep_replicate _ _ 5 hw hm hb
    exact ⟨h1, h2, h3⟩

/-- Claim C2 (amended): in the pure ranging end-to-end scenario (start price
100, spread base 0.02, window 5) where the model yields zero ticks every second
so the mid price never changes, the pivot after every update from step 1 on is
`PivotHigh` — not `none` as the claim states: the source compares the centre mid
with the buffer maximum by plain equality, not strictly, and on an all-equal
buffer the centre attains the maximum. -/
theorem claim_C2_flat_run_pivot (n : ℕ) (hn : 1 ≤ n) :
    (flatStep^[n] (initPriceModel 100 (2/100) 5)).pivot = some Pivot.PH := by
  obtain ⟨m, rfl⟩ : ∃ m, n = m + 1 := ⟨n - 1, by omega⟩
  obtain ⟨hb, hw, hm⟩ := flatRun_invariant m
  rw [Function.iterate_succ_apply']
  exact (flatStep_replicate _ _ 5 hw hm hb).2.2.2

/-- Claim C2 witness: after 11 flat steps the pivot equals `PivotHigh`. -/
theorem claim_C2_flat_run_pivot_witness :
    (flatStep^[11] (initPriceModel 100 (2/100) 5)).pivot = some Pivot.PH :=
  claim_C2_flat_run_pivot 11 (by norm_num)

/-- Claim C2 counterexample: after 11 steps of the flat scenario the pivot is
not `none` (it is `PivotHigh`), refuting "pivot remains none indefinitely". -/
theorem claim_C2_counterexample :
    (flatStep^[11] (initPriceModel 100 (2/100) 5)).pivot ≠ Option.none := by
  obtain ⟨hb, hw, hm⟩ := flatRun_invariant 10
  rw [show (11:ℕ) = 10 + 1 from rfl, Function.iterate_succ_apply']
  rw [(flatStep_replicate _ _ 5 hw hm hb).2.2.2]
  simp

/-! ## Volume-weighted mid (C10) -/

theorem stepSecond_sizes (samples : List RawTick) :
    ∀ (ts : ℚ) (target : Option ℚ) (sgn : Sign) (g : GenState),
      ((stepSecond ts target samples sgn g).2.map fun tk => tk.sizeBid) =
        (samples.map fun s => ⌊s.size / 2⌋) ∧
      ((stepSecond ts target samples sgn g).2.map fun tk => tk.sizeAsk) =
        (samples.map fun s => ⌊s.size / 2⌋) := by
  induction samples with
  | nil => intro ts target sgn g; exact ⟨rfl, rfl⟩
  | cons t rest ih =>
    intro ts target sgn g
    simp only [stepSecond, List.map_cons]
    exact ⟨by rw [(ih ts target _ _).1], by rw [(ih ts target _ _).2]⟩

theorem getVolumeWeightedMid_equal_sizes (g : GenState) (s : ℚ) :
    getVolumeWeightedMid g s s = (g.bid + g.ask) / 2 := by
  unfold getVolumeWeightedMid
  by_cases hs : s + s = 0
  · rw [if_pos hs]
  · rw [if_neg hs]
    have h2 : s ≠ 0 := fun h => hs (by rw [h]; ring)
    field_simp
    ring

theorem pushEntry_getLast? (st : PMState) (entry : BufferEntry)
    (hpos : st.buffer ≠ []) :
    (pushEntry st entry).getLast? = some entry := by
  obtain ⟨b0, rest, hb⟩ := List.exists_cons_of_ne_nil hpos
  unfold pushEntry
  by_cases h : st.maxBufferSize < (st.buffer ++ [entry]).length
  · rw [if_pos h, hb, List.cons_append, List.tail_cons, List.getLast?_concat]
  · rw [if_neg h, List.getLast?_concat]

theorem update_last_mid (st : PMState) (samples : List RawTick) (target : Option ℚ)
    (sgn : Sign) (ts : ℚ) (hs : samples ≠ []) (hpos : st.buffer ≠ []) :
    ∃ e : BufferEntry,
      (st.update samples target sgn ts).buffer.getLast? = some e ∧
      e.mid = ((st.update samples target sgn ts).gen.bid +
               (st.update samples target sgn ts).gen.ask) / 2 := by
  have hlen : (stepSecond ts target samples sgn st.gen).2.length = samples.length := by
    have h1 := congrArg List.length (stepSecond_sizes samples ts target sgn st.gen).1
    simpa using h1
  have hne : (stepSecond ts target samples sgn st.gen).2 ≠ [] := by
    intro h
    rw [h] at hlen
    exact hs (List.length_eq_zero.mp hlen.symm)
  obtain ⟨last, hlast⟩ : ∃ last, (stepSecond ts target samples sgn st.gen).2.getLast? =
      some last := by
    cases h : (stepSecond ts target samples sgn st.gen).2.getLast? with
    | none => exact absurd (List.getLast?_eq_none_iff.mp h) hne
    | some x => exact ⟨x, rfl⟩
  have hmemb := mem_of_getLast?_eq _ last hlast
  have hsz : last.sizeBid = last.sizeAsk := by
    have h12 := ((stepSecond_sizes samples ts target sgn st.gen).1).trans
      ((stepSecond_sizes samples ts target sgn st.gen).2).symm
    exact List.map_eq_map_iff.mp h12 last hmemb
  have hsv : stepValues st (stepSecond ts target samples sgn st.gen).1
      (stepSecond ts target samples sgn st.gen).2 =
      (last.priceBid, last.priceAsk,
        getVolumeWeightedMid (stepSecond ts target samples sgn st.gen).1
          (last.sizeBid : ℚ) (last.sizeAsk : ℚ), last.priceBid, last.priceAsk) := by
    unfold stepValues
    rw [hlast]
  refine ⟨⟨(stepValues st (stepSecond ts target samples sgn st.gen).1
        (stepSecond ts target samples sgn st.gen).2).1,
      (stepValues st (stepSecond ts target samples sgn st.gen).1
        (stepSecond ts target samples sgn st.gen).2).2.1,
      (stepValues st (stepSecond ts target samples sgn st.gen).1
        (stepSecond ts target samples sgn st.gen).2).2.2.1⟩, ?_, ?_⟩
  · exact pushEntry_getLast? st _ hpos
  · show (stepValues st (stepSecond ts target samples sgn st.gen).1
        (stepSecond ts target samples sgn st.gen).2).2.2.1 =
      ((stepSecond ts target samples sgn st.gen).1.bid +
       (stepSecond ts target samples sgn st.gen).1.ask) / 2
    rw [hsv, hsz]
    exact getVolumeWeightedMid_equal_sizes _ _

/-- Claim C10: every tick emitted by `stepSecond` carries equal bid and ask
sizes, both `⌊sampledSize/2⌋` of the corresponding sampled tick;
`getVolumeWeightedMid(s, s)` equals the arithmetic mid `(bid+ask)/2` for every
size `s` (including `s = 0` via the zero-total-size fallback); hence the mid
recorded by `PriceModel.update` on a step with ticks equals the arithmetic mid
of the generator's (post-step) bid and ask. -/
theorem claim_C10_mid_is_arithmetic :
    (∀ (samples : List RawTick) (ts : ℚ) (target : Option ℚ) (sgn : Sign) (g : GenState),
        ((stepSecond ts target samples sgn g).2.map fun tk => tk.sizeBid) =
          (samples.map fun s => ⌊s.size / 2⌋) ∧
        ((stepSecond ts target samples sgn g).2.map fun tk => tk.sizeAsk) =
          (samples.map fun s => ⌊s.size / 2⌋)) ∧
    (∀ (g : GenState) (s : ℚ), getVolumeWeightedMid g s s = (g.bid + g.ask) / 2) ∧
    (∀ (st : PMState) (samples : List RawTick) (target : Option ℚ) (sgn : Sign) (ts : ℚ),
        samples ≠ [] → st.buffer ≠ [] →
        ∃ e : BufferEntry,
          (st.update samples target sgn ts).buffer.getLast? = some e ∧
          e.mid = ((st.update samples target sgn ts).gen.bid +
                   (st.update samples target sgn ts).gen.ask) / 2) :=
  ⟨fun samples ts target sgn g => stepSecond_sizes samples ts target sgn g,
   getVolumeWeightedMid_equal_sizes,
   fun st samples target sgn ts hs hpos => update_last_mid st samples target sgn ts hs hpos⟩

/-- Claim C10 witness: a step with one sampled tick of size 0 (so both split
sizes are 0 and the zero-total fallback applies) on the ranging start state. -/
theorem claim_C10_mid_is_arithmetic_witness :
    ∃ e : BufferEntry,
      ((initPriceModel 100 (2/100) 5).update [{ dp := 0, spread := 0, size := 0 }]
          Option.none Sign.F 0).buffer.getLast? = some e ∧
      e.mid = (((initPriceModel 100 (2/100) 5).update [{ dp := 0, spread := 0, size := 0 }]
          Option.none Sign.F 0).gen.bid +
        ((initPriceModel 100 (2/100) 5).update [{ dp := 0, spread := 0, size := 0 }]
          Option.none Sign.F 0).gen.ask) / 2 :=
  claim_C10_mid_is_arithmetic.2.2 (initPriceModel 100 (2/100) 5)
    [{ dp := 0, spread := 0, size := 0 }] Option.none Sign.F 0 (by simp)
    (by simp [initPriceModel])
